import Mathlib

/-!
Verification of the autoclick parameter-processing core against its
natural-language specification.  The definitions below are shallow
embeddings of the Python source of the repository:

* the deferred post-parse pipeline (`CommandMixin.parse_args` and
  `_apply_to_parsed_args` in `autoclick/core.py`, `apply_to_parsed_args`
  used by `autoclick/commands.py`),
* composite reassembly (`Composite.handle_args` in
  `autoclick/composites/__init__.py`),
* union-annotation resolution (`ParameterInfo.__init__` in
  `autoclick/core.py`),
* composite registration (`Composite._handle_parameter_info` and
  `Composite._create_decorator`),
* short-name inference (`BaseDecorator._get_short_name`),
* the conversion / validation / composite registries,
* the `validation` decorator wrapper (`autoclick/validations/__init__.py`),
* prefix-based command lookup (`AutoClickGroup.get_command` in
  `autoclick/commands.py`).

Python dictionaries that the code mutates are modelled as functions
`key -> Option value`; absence of a key is `Option.none`.  Exceptions are
modelled with `Except`.
-/

namespace AutoClick

/-- A Python runtime value, rich enough to model the truthiness tests the
source performs (`filter(None, ...)`, `if result`).  `pynone` is Python
`None`; `pyobj` stands for an arbitrary constructed object, which is
always truthy. -/
inductive PyVal where
  | pynone
  | pybool (b : Bool)
  | pyint (n : Int)
  | pystr (s : String)
  | pyobj (cls : String) (fields : List PyVal)

/-- Python truthiness (`bool(x)`) for the modelled values. -/
def PyVal.truthy : PyVal → Bool
  | .pynone => false
  | .pybool b => b
  | .pyint n => n != 0
  | .pystr s => s ≠ ""
  | .pyobj _ _ => true

/-- A Python type object, as used for registry keys (`CONVERSIONS`,
`VALIDATIONS`, `COMPOSITES`) and for union-annotation arguments.
`noneType` is `type(None)`. -/
inductive PyType where
  | noneType
  | pybool
  | pyint
  | pyfloat
  | pystr
  | named (s : String)
deriving DecidableEq, Repr

/-- The parsed-values map `ctx.params`: long parameter names to converted
values.  A key that is missing from the dictionary maps to `Option.none`. -/
def Params (V : Type) : Type := String → Option V

/-- Model of `values[param] = value` (dictionary assignment). -/
def setParam {V : Type} (values : Params V) (name : String) (v : V) : Params V :=
  fun k => if k = name then some v else values k

/-- Model of the update loop `for param, value in result.items():
values[param] = value` in `_apply_to_parsed_args`. -/
def setAll {V : Type} (values : Params V) (result : List (String × V)) : Params V :=
  result.foldl (fun m kv => setParam m kv.1 kv.2) values

/-- Model of `fn_kwargs = dict((param, values.get(param, None)) for param
in params)`: the keyword arguments gathered for one group of parameter
names. -/
def gatherKwargs {V : Type} (ps : List String) (values : Params V) :
    List (String × Option V) :=
  ps.map (fun p => (p, values p))

/-- A conditional or validation function as used by the pipeline: it
receives the gathered keyword arguments and either raises (modelled with
`Except.error`) or returns a mapping of parameter names to replacement
values (empty for plain validations). -/
def PipelineFn (V E : Type) : Type :=
  List (String × Option V) → Except E (List (String × V))

/-- The inner loop of `_apply_to_parsed_args`: run the functions of one
group against the keyword arguments `kw` that were gathered before the
loop started.  When `update` is set and a function returns a non-empty
mapping (`if result and update:`), the parsed-values map is overwritten;
the gathered `kw` is not recomputed. -/
def applyFnsWith {V E : Type} (kw : List (String × Option V))
    (fns : List (PipelineFn V E)) (values : Params V) (update : Bool) :
    Except E (Params V) :=
  match fns with
  | [] => .ok values
  | fn :: rest =>
    match fn kw with
    | .error e => .error e
    | .ok result =>
        applyFnsWith kw rest
          (if update && !result.isEmpty then setAll values result else values)
          update

/-- One iteration of the outer loop of `_apply_to_parsed_args`: the
keyword arguments for the group are gathered once, then every function of
the group runs against that snapshot. -/
def applyGroup {V E : Type} (ps : List String) (fns : List (PipelineFn V E))
    (values : Params V) (update : Bool) : Except E (Params V) :=
  applyFnsWith (gatherKwargs ps values) fns values update

/-- Model of `_apply_to_parsed_args(d, values, update)` from
`autoclick/core.py` (identical to `apply_to_parsed_args` used by
`autoclick/commands.py` and to the local `_apply` in
`autoclick/__init__.py`).  `d` is the registered mapping from
parameter-name groups to function lists, in iteration order. -/
def apply_to_parsed_args {V E : Type}
    (d : List (List String × List (PipelineFn V E))) (values : Params V)
    (update : Bool) : Except E (Params V) :=
  match d with
  | [] => .ok values
  | (ps, fns) :: rest =>
    match applyGroup ps fns values update with
    | .error e => .error e
    | .ok v1 => apply_to_parsed_args rest v1 update

/-- Model of the composite-callback loop at the end of
`CommandMixin.parse_args`: each callback transforms the parsed-values map
(popping member entries, inserting the synthesized composite), and may
raise. -/
def runCallbacks {V E : Type} (cbs : List (Params V → Except E (Params V)))
    (values : Params V) : Except E (Params V) :=
  match cbs with
  | [] => .ok values
  | cb :: rest =>
    match cb values with
    | .error e => .error e
    | .ok v1 => runCallbacks rest v1

/-- Model of `CommandMixin.parse_args` (`autoclick/commands.py` lines
31-37, `autoclick/core.py` lines 637-643) after the underlying click
engine has produced the raw parsed-values map `params`: first all
conditionals (`update=True`), then all validations (`update=False`), then
the composite callbacks. -/
def parse_args {V E : Type}
    (conditionals validations : List (List String × List (PipelineFn V E)))
    (callbacks : List (Params V → Except E (Params V)))
    (params : Params V) : Except E (Params V) :=
  match apply_to_parsed_args conditionals params true with
  | .error e => .error e
  | .ok p1 =>
    match apply_to_parsed_args validations p1 false with
    | .error e => .error e
    | .ok p2 => runCallbacks callbacks p2

/-- With `update = false` the inner loop never touches the map. -/
theorem applyFnsWith_false_ok {V E : Type} (kw : List (String × Option V))
    (fns : List (PipelineFn V E)) (values w : Params V)
    (h : applyFnsWith kw fns values false = .ok w) : w = values := by
  induction fns generalizing values with
  | nil => simpa [applyFnsWith] using h.symm
  | cons fn rest ih =>
    unfold applyFnsWith at h
    cases hfn : fn kw with
    | error e => rw [hfn] at h; exact absurd h (by simp)
    | ok result =>
      rw [hfn] at h
      simpa using ih values h

/-- With `update = false` (the validation phase) `_apply_to_parsed_args`
never changes the parsed-values map. -/
theorem apply_to_parsed_args_false_ok {V E : Type}
    (d : List (List String × List (PipelineFn V E))) (values w : Params V)
    (h : apply_to_parsed_args d values false = .ok w) : w = values := by
  induction d generalizing values with
  | nil => simpa [apply_to_parsed_args] using h.symm
  | cons g rest ih =>
    unfold apply_to_parsed_args at h
    cases hg : applyGroup g.1 g.2 values false with
    | error e => rw [hg] at h; exact absurd h (by simp)
    | ok v1 =>
      rw [hg] at h
      have hv1 : v1 = values := applyFnsWith_false_ok _ _ _ _ hg
      rw [hv1] at h
      exact ih values h

/-- Concrete conditional for the pipeline-ordering scenario: rewrites
parameter b to 5 when a is 1. -/
def condRewriteB : PipelineFn Int String :=
  fun kw => .ok (if kw.lookup "a" = some (some 1) then [("b", 5)] else [])

/-- Concrete validation on b: accepts only the rewritten value 5. -/
def valCheckB : PipelineFn Int String :=
  fun kw => if kw.lookup "b" = some (some 5) then .ok [] else .error "ValidationError"

/-- Raw parsed-values map for the pipeline-ordering scenario: a maps to 1
and b maps to 0 (the value that fails validation before rewriting). -/
def pipelineParams0 : Params Int :=
  fun k => if k = "a" then some 1 else if k = "b" then some 0 else none

/-- The map after the conditional phase has rewritten b to 5. -/
def pipelineRewritten : Params Int :=
  fun k => if k = "b" then some 5 else pipelineParams0 k

/-- C1: `parse_args` runs the three phases in strict order on the
parsed-values map, each exactly once: whenever the conditional phase
produces the rewritten map, the validation phase is applied to that
rewritten map (so every validation observes conditional rewrites), the
validation phase leaves the map unchanged, and the composite callbacks
run on the rewritten map only after every validation has succeeded. -/
theorem parse_args_three_phases {V E : Type}
    (conditionals validations : List (List String × List (PipelineFn V E)))
    (callbacks : List (Params V → Except E (Params V)))
    (params rewritten : Params V)
    (hc : apply_to_parsed_args conditionals params true = .ok rewritten) :
    parse_args conditionals validations callbacks params =
      match apply_to_parsed_args validations rewritten false with
      | .error e => .error e
      | .ok _ => runCallbacks callbacks rewritten := by
  unfold parse_args
  rw [hc]
  cases hv : apply_to_parsed_args validations rewritten false with
  | error e => simp [hv]
  | ok p2 =>
    have hp2 := apply_to_parsed_args_false_ok _ _ _ hv
    subst hp2
    simp [hv]

/-- Witness for C1, the ordering scenario of the specification: the
validation on b fails against the original map, yet the full pipeline
succeeds because the conditional rewrite of b runs first. -/
theorem parse_args_three_phases_witness :
    valCheckB (gatherKwargs ["b"] pipelineParams0) = .error "ValidationError" ∧
    parse_args [(["a", "b"], [condRewriteB])] [(["b"], [valCheckB])] []
        pipelineParams0 = .ok pipelineRewritten :=
  ⟨rfl,
    (parse_args_three_phases [(["a", "b"], [condRewriteB])] [(["b"], [valCheckB])]
        [] pipelineParams0 pipelineRewritten rfl).trans rfl⟩

/-- First conditional of the same-group scenario: unconditionally rewrites
a to 5. -/
def condFirst : PipelineFn Int String := fun _ => .ok [("a", 5)]

/-- Second conditional of the same-group scenario: reports which value of
a it received in its keyword arguments (100 for the original 0, 200 for
the updated 5). -/
def condSecond : PipelineFn Int String :=
  fun kw => .ok (if kw.lookup "a" = some (some 0) then [("a", 100)] else [("a", 200)])

/-- Raw parsed-values map for the same-group scenario: a maps to 0. -/
def groupParams0 : Params Int := fun k => if k = "a" then some 0 else none

/-- C2 counterexample: in one conditional group, after the first function
rewrites a to 5, the second function of the same group still receives the
original value 0 (the keyword arguments are gathered once per group), so
the final value of a is 100; had the second function been invoked with
the updated value 5, as the claim states, the final value would have
been 200. -/
theorem conditional_group_counterexample :
    (apply_to_parsed_args [(["a"], [condFirst, condSecond])] groupParams0
        true).map (fun m => m "a") = .ok (some 100) ∧
    condSecond [("a", some 5)] = .ok [("a", 200)] ∧
    (100 : Int) ≠ 200 :=
  ⟨rfl, rfl, by decide⟩

/-- C2 (amended): when an earlier function of a group returns a non-empty
mapping, the parsed-values map is overwritten with those entries, but the
remaining functions of the same group are invoked with the keyword
arguments gathered when the group started (the updated values are only
seen by later groups and later phases). -/
theorem applyGroup_snapshot {V E : Type} (ps : List String) (f : PipelineFn V E)
    (fns : List (PipelineFn V E)) (values : Params V)
    (result : List (String × V))
    (hf : f (gatherKwargs ps values) = .ok result) (hne : result ≠ []) :
    applyGroup ps (f :: fns) values true =
      applyFnsWith (gatherKwargs ps values) fns (setAll values result) true := by
  unfold applyGroup applyFnsWith
  rw [hf]
  simp only [Except.ok.injEq]
  simp [hne]
  rw [applyFnsWith.eq_def]

/-- Witness for the amended C2 on the concrete same-group scenario. -/
theorem applyGroup_snapshot_witness :
    applyGroup ["a"] [condFirst, condSecond] groupParams0 true =
      applyFnsWith (gatherKwargs ["a"] groupParams0) [condSecond]
        (setAll groupParams0 [("a", 5)]) true :=
  applyGroup_snapshot ["a"] condFirst [condSecond] groupParams0 [("a", 5)]
    rfl (by simp)

/-- Model of the tail of `Composite.handle_args`
(`autoclick/composites/__init__.py` lines 218-225): the entry stored
under the logical parameter name.  The guard is
`self.force_create or not param.optional or
tuple(filter(None, kwargs.values()))`; `filter(None, ...)` keeps the
truthy values, so the guard is satisfied as soon as one member value is
truthy. -/
def handle_args_entry (force_create opt : Bool)
    (decorated : List (String × PyVal) → PyVal)
    (kwargs : List (String × PyVal)) : PyVal :=
  if force_create || !opt || !((kwargs.map Prod.snd).filter PyVal.truthy).isEmpty
  then decorated kwargs
  else PyVal.pynone

/-- Concrete composite target: builds an object from the member values. -/
def fooTarget : List (String × PyVal) → PyVal :=
  fun kwargs => PyVal.pyobj "Foo" (kwargs.map Prod.snd)

/-- C3 counterexample: for an optional composite with `force_create`
false and the single member value 0 — a value that is supplied (not
`None`) but falsy — the stored entry is `None`, although the claim
requires the target callable to be invoked because not every member
value is absent. -/
theorem composite_skip_counterexample :
    handle_args_entry false true fooTarget [("num", PyVal.pyint 0)] =
      PyVal.pynone ∧
    PyVal.pyint 0 ≠ PyVal.pynone ∧
    fooTarget [("num", PyVal.pyint 0)] ≠ PyVal.pynone := by
  refine ⟨rfl, fun h => PyVal.noConfusion h, fun h => ?_⟩
  rw [show fooTarget [("num", PyVal.pyint 0)] =
        PyVal.pyobj "Foo" [PyVal.pyint 0] from rfl] at h
  exact PyVal.noConfusion h

/-- C3 (amended): the stored entry is `None` exactly when the composite
is optional, `force_create` is false and every member value is falsy
(Python truthiness: `None`, `False`, 0, the empty string, ... all count
as absent); in every other case the target callable is invoked on the
popped member values and its result is stored. -/
theorem handle_args_entry_spec (force_create opt : Bool)
    (decorated : List (String × PyVal) → PyVal)
    (kwargs : List (String × PyVal)) :
    (handle_args_entry force_create opt decorated kwargs = PyVal.pynone ∧
       force_create = false ∧ opt = true ∧
       ∀ kv ∈ kwargs, kv.2.truthy = false) ∨
    (handle_args_entry force_create opt decorated kwargs = decorated kwargs ∧
       (force_create = true ∨ opt = false ∨
         ∃ kv ∈ kwargs, kv.2.truthy = true)) := by
  cases force_create with
  | true => exact .inr ⟨by simp [handle_args_entry], .inl rfl⟩
  | false =>
    cases opt with
    | false => exact .inr ⟨by simp [handle_args_entry], .inr (.inl rfl)⟩
    | true =>
      by_cases hf : (kwargs.map Prod.snd).filter PyVal.truthy = []
      · refine .inl ⟨by simp [handle_args_entry, hf], rfl, rfl, ?_⟩
        intro kv hkv
        have hm : kv.2 ∈ kwargs.map Prod.snd :=
          List.mem_map_of_mem Prod.snd hkv
        have := List.filter_eq_nil_iff.mp hf kv.2 hm
        simpa using this
      · refine .inr ⟨by simp [handle_args_entry, hf], .inr (.inr ?_)⟩
        have hex : ∃ v ∈ kwargs.map Prod.snd, PyVal.truthy v = true := by
          by_contra hc
          push_neg at hc
          exact hf (List.filter_eq_nil_iff.mpr (by simpa using hc))
        obtain ⟨v, hv, hvt⟩ := hex
        obtain ⟨kv, hkv, hkv2⟩ := List.mem_map.mp hv
        exact ⟨kv, hkv, by rw [hkv2]; exact hvt⟩

/-- Witness-style corollary of the amended C3 at a concrete input where a
member value is truthy: the target is invoked. -/
theorem handle_args_entry_spec_witness :
    handle_args_entry false true fooTarget [("num", PyVal.pyint 3)] =
      fooTarget [("num", PyVal.pyint 3)] := by
  rcases handle_args_entry_spec false true fooTarget
      [("num", PyVal.pyint 3)] with ⟨_, _, _, hall⟩ | ⟨h, _⟩
  · exact absurd (hall ("num", PyVal.pyint 3) (by simp)) (by decide)
  · exact h

/-- The distinct non-none members of a union annotation: models
`filtered_args = set(self.anno_type.__args__)` followed by
`filtered_args.remove(type(None))` in `ParameterInfo.__init__`. -/
def distinctNonNone (args : List PyType) : List PyType :=
  (args.filter (fun t => decide (t ≠ PyType.noneType))).dedup

/-- Model of the union-resolution step of `ParameterInfo.__init__`
(`autoclick/core.py` lines 146-162): when exactly one non-none member
remains the annotation unwraps to it and the parameter is marked
optional; otherwise a `SignatureError` is raised. -/
def resolveUnion (args : List PyType) : Except String (PyType × Bool) :=
  match distinctNonNone args with
  | [t] => .ok (t, true)
  | _ => .error "SignatureError: Union type not supported"

/-- Membership in the distinct non-none members. -/
theorem mem_distinctNonNone {args : List PyType} {t : PyType} :
    t ∈ distinctNonNone args ↔ t ∈ args ∧ t ≠ PyType.noneType := by
  simp [distinctNonNone, List.mem_dedup, List.mem_filter]

/-- A duplicate-free list with a member that every member equals is that
singleton. -/
theorem nodup_eq_singleton {α : Type} {l : List α} {a : α} (hn : l.Nodup)
    (ha : a ∈ l) (hu : ∀ b ∈ l, b = a) : l = [a] := by
  cases l with
  | nil => cases ha
  | cons b t =>
    have hb : b = a := hu b (List.mem_cons_self b t)
    subst hb
    have ht : t = [] := by
      cases t with
      | nil => rfl
      | cons c s =>
        have hc : c = b := hu c (List.mem_cons_of_mem b (List.mem_cons_self c s))
        subst hc
        exact absurd (List.mem_cons_self c s)
          (by simpa using (List.nodup_cons.mp hn).1)
    rw [ht]

/-- C4: union resolution succeeds exactly when removing the none type
leaves a single non-none member, in which case it unwraps to that member
and marks the parameter optional; whenever more than one distinct
non-none member remains it raises `SignatureError`. -/
theorem resolveUnion_spec (args : List PyType) :
    (∀ t, resolveUnion args = .ok (t, true) ↔
       (t ≠ PyType.noneType ∧ t ∈ args ∧
         ∀ u ∈ args, u ≠ PyType.noneType → u = t)) ∧
    (∀ r, resolveUnion args = .ok r → r.2 = true) ∧
    ((∃ t ∈ args, ∃ u ∈ args,
        t ≠ PyType.noneType ∧ u ≠ PyType.noneType ∧ t ≠ u) →
      resolveUnion args = .error "SignatureError: Union type not supported") := by
  refine ⟨?_, ?_, ?_⟩
  · intro t
    constructor
    · intro h
      have hfil : distinctNonNone args = [t] := by
        unfold resolveUnion at h
        rcases hd : distinctNonNone args with _ | ⟨x, _ | ⟨y, rest⟩⟩ <;>
          rw [hd] at h <;> simp_all
      have hmem : t ∈ distinctNonNone args := by rw [hfil]; exact List.mem_cons_self t []
      have ht := mem_distinctNonNone.mp hmem
      refine ⟨ht.2, ht.1, fun u hu hun => ?_⟩
      have : u ∈ distinctNonNone args := mem_distinctNonNone.mpr ⟨hu, hun⟩
      rw [hfil] at this
      simpa using this
    · rintro ⟨htn, hta, huniq⟩
      have hfil : distinctNonNone args = [t] :=
        nodup_eq_singleton (List.nodup_dedup _)
          (mem_distinctNonNone.mpr ⟨hta, htn⟩)
          (fun b hb => huniq b (mem_distinctNonNone.mp hb).1
            (mem_distinctNonNone.mp hb).2)
      unfold resolveUnion
      rw [hfil]
  · intro r h
    unfold resolveUnion at h
    rcases hd : distinctNonNone args with _ | ⟨x, _ | ⟨y, rest⟩⟩ <;> rw [hd] at h
    · exact absurd h (by simp)
    · rw [← Except.ok.inj h]
    · exact absurd h (by simp)
  · rintro ⟨t, hta, u, hua, htn, hun, htu⟩
    have htm : t ∈ distinctNonNone args := mem_distinctNonNone.mpr ⟨hta, htn⟩
    have hum : u ∈ distinctNonNone args := mem_distinctNonNone.mpr ⟨hua, hun⟩
    unfold resolveUnion
    rcases hd : distinctNonNone args with _ | ⟨x, _ | ⟨y, rest⟩⟩
    · exact absurd (hd ▸ htm) (List.not_mem_nil t)
    · have htm1 : t = x := by have := htm; rw [hd] at this; simpa using this
      have hum1 : u = x := by have := hum; rw [hd] at this; simpa using this
      exact absurd (htm1.trans hum1.symm) htu
    · rfl

/-- Witness-style corollary of C4: the optional annotation
`Union[int, None]` unwraps to its int member and is marked optional. -/
theorem resolveUnion_spec_witness :
    resolveUnion [PyType.pyint, PyType.noneType] = .ok (PyType.pyint, true) :=
  ((resolveUnion_spec [PyType.pyint, PyType.noneType]).1 PyType.pyint).mpr
    (by decide)

/-- The information about one member parameter of a composite target
that `Composite._handle_parameter_info` inspects: its name, its
match type, and whether it is a `*args` / `**kwargs` catch-all
(`ParameterInfo.extra_arguments` / `.extra_kwargs`). -/
structure MemberInfo where
  name : String
  match_type : PyType
  extra_arguments : Bool
  extra_kwargs : Bool

/-- Model of `Composite._handle_parameter_info`
(`autoclick/composites/__init__.py` lines 103-108, `autoclick/core.py`
lines 437-442): only variadic catch-all members raise `SignatureError`;
the member match type is not compared against the composite registry. -/
def composite_handle_parameter_info (p : MemberInfo) : Except String Unit :=
  if p.extra_arguments || p.extra_kwargs then
    .error "SignatureError: CompositeType cannot have *args or **kwargs"
  else .ok ()

/-- Model of the member loop of `_get_parameter_info` as run at composite
registration time: `_handle_parameter_info` is applied to every member. -/
def checkMembers (members : List MemberInfo) : Except String Unit :=
  match members with
  | [] => .ok ()
  | m :: rest =>
    match composite_handle_parameter_info m with
    | .error e => .error e
    | .ok _ => checkMembers rest

/-- Model of `Composite._create_decorator`
(`autoclick/composites/__init__.py` lines 110-117, `autoclick/core.py`
lines 444-451): build the member infos (raising on catch-all members),
raise `TypeCollisionError` when a composite for the match type already
exists, and otherwise store the composite in the registry. -/
def composite_create_decorator {C : Type} (comps : PyType → Option C)
    (match_type : PyType) (members : List MemberInfo) (d : C) :
    Except String (PyType → Option C) :=
  match checkMembers members with
  | .error e => .error e
  | .ok _ =>
    if (comps match_type).isSome then .error "TypeCollisionError"
    else .ok (fun u => if u = match_type then some d else comps u)

/-- A composite registry that already holds a composite for the type
Foo. -/
def fooComposites : PyType → Option String :=
  fun u => if u = PyType.named "Foo" then some "Foo" else Option.none

/-- A member whose type is the already-registered composite type Foo. -/
def nestedMember : MemberInfo :=
  { name := "foo", match_type := PyType.named "Foo",
    extra_arguments := false, extra_kwargs := false }

/-- A variadic `*args` catch-all member. -/
def varargsMember : MemberInfo :=
  { name := "args", match_type := PyType.named "Foo",
    extra_arguments := true, extra_kwargs := false }

/-- C5: registering a composite one of whose members has the type of an
already-registered composite succeeds silently — no `SignatureError` is
raised, contradicting the claim and the docstring of `Composite` —
whereas a variadic catch-all member does raise `SignatureError` as
claimed. -/
theorem composite_nesting_not_rejected :
    composite_create_decorator fooComposites (PyType.named "Bar")
        [nestedMember] "Bar" =
      .ok (fun u => if u = PyType.named "Bar" then some "Bar"
            else fooComposites u) ∧
    composite_create_decorator fooComposites (PyType.named "Bar")
        [varargsMember] "Bar" =
      .error "SignatureError: CompositeType cannot have *args or **kwargs" :=
  ⟨rfl, rfl⟩

/-- Model of `register_conversion` (`autoclick/types/__init__.py` lines
106-113) and of the assignment `CONVERSIONS[_dest_type] = click_type` in
`autoclick/core.py`: plain dictionary assignment, overwriting any entry
for the same type. -/
def register_conversion {C : Type} (conversions : PyType → Option C)
    (t : PyType) (c : C) : PyType → Option C :=
  fun u => if u = t then some c else conversions u

/-- C7: a second conversion registration for a type silently overwrites
the first (so registering the same conversion twice is the same as
registering it once, last write wins), while a second composite
registration for an already-registered type raises `TypeCollisionError`. -/
theorem registration_overwrite_vs_collision {C : Type} :
    (∀ (conversions : PyType → Option C) (t : PyType) (c1 c2 : C),
       register_conversion (register_conversion conversions t c1) t c2 =
         register_conversion conversions t c2) ∧
    (∀ (conversions : PyType → Option C) (t : PyType) (c : C),
       register_conversion (register_conversion conversions t c) t c =
         register_conversion conversions t c) ∧
    (∀ (comps : PyType → Option C) (t : PyType) (members : List MemberInfo)
       (d : C), checkMembers members = .ok () → (comps t).isSome →
       composite_create_decorator comps t members d =
         .error "TypeCollisionError") := by
  refine ⟨?_, ?_, ?_⟩
  · intro conversions t c1 c2
    funext u
    by_cases h : u = t <;> simp [register_conversion, h]
  · intro conversions t c
    funext u
    by_cases h : u = t <;> simp [register_conversion, h]
  · intro comps t members d hm hs
    unfold composite_create_decorator
    rw [hm]
    simp [hs]

/-- Witness-style corollary of C7: overwriting registration of a
conversion at a concrete type, and a `TypeCollisionError` when a second
composite is registered for Foo. -/
theorem registration_overwrite_vs_collision_witness :
    register_conversion
        (register_conversion (fun _ => (Option.none : Option String))
          PyType.pyint "conv") PyType.pyint "conv" =
      register_conversion (fun _ => (Option.none : Option String))
        PyType.pyint "conv" ∧
    composite_create_decorator fooComposites (PyType.named "Foo") [] "Foo2" =
      .error "TypeCollisionError" :=
  ⟨(registration_overwrite_vs_collision (C := String)).2.1 _ PyType.pyint
      "conv",
    (registration_overwrite_vs_collision (C := String)).2.2 fooComposites
      (PyType.named "Foo") [] "Foo2" rfl (by decide)⟩

/-- Model of `register_validation` (`autoclick/validations/__init__.py`
lines 19-28): create the list for a missing key, then append.  Keys are
`Option PyType` because the decorator can pass the raw `match_type`
argument, which may be Python `None`. -/
def register_validation {F : Type} (validations : Option PyType → Option (List F))
    (type_ : Option PyType) (validation_fn : F) :
    Option PyType → Option (List F) :=
  let v1 := if (validations type_).isNone
    then (fun k => if k = type_ then some [] else validations k)
    else validations
  fun k => if k = type_ then some ((v1 type_).getD [] ++ [validation_fn])
    else v1 k

/-- Model of the registration performed by the `validation` decorator in
`autoclick/core.py` lines 939-958.  The resolved type is
`_match_type = match_type or inferred`, but the membership guard tests
the raw `match_type` (`if match_type not in VALIDATIONS:`), while the
re-initialization and the append both use `_match_type`. -/
def validation_decorator_core {F : Type}
    (validations : Option PyType → Option (List F))
    (match_type : Option PyType) (inferred : PyType) (target : F) :
    Option PyType → Option (List F) :=
  let mt : Option PyType := some (match_type.getD inferred)
  let v1 := if (validations match_type).isNone
    then (fun k => if k = mt then some [] else validations k)
    else validations
  fun k => if k = mt then some ((v1 mt).getD [] ++ [target]) else v1 k

/-- The empty validation registry. -/
def emptyValidations : Option PyType → Option (List Nat) := fun _ => Option.none

/-- C8: through `register_validation` (and hence through the decorator
with an explicit match type) validations accumulate in registration
order, but when the decorator infers the match type (its `match_type`
argument left as None) the guard `if match_type not in VALIDATIONS`
re-initializes the list on every registration, so the earlier
registration is destroyed: after registering targets 1 and 2 for the
same inferred type, the registry holds [2] instead of the claimed
[1, 2]. -/
theorem validation_registration_wipes_inferred :
    (register_validation
        (register_validation emptyValidations (some PyType.pyint) 1)
        (some PyType.pyint) 2) (some PyType.pyint) = some [1, 2] ∧
    (validation_decorator_core
        (validation_decorator_core emptyValidations Option.none PyType.pyint 1)
        Option.none PyType.pyint 2) (some PyType.pyint) = some [2] ∧
    some [2] ≠ some ([1, 2] : List Nat) :=
  ⟨rfl, rfl, by decide⟩

/-- Model of `composite_validation` inside the `validation` decorator
(`autoclick/validations/__init__.py` lines 78-82): run the declared
dependency validations in order against the same arguments, then the
decorated function; the first raised error propagates. -/
def composite_validation {V E : Type}
    (depends : List (String → V → Except E Unit))
    (f : String → V → Except E Unit) (param_name : String) (value : V) :
    Except E Unit :=
  match depends with
  | [] => f param_name value
  | dep :: rest =>
    match dep param_name value with
    | .error e => .error e
    | .ok _ => composite_validation rest f param_name value

/-- Model of the target selection of the `validation` decorator:
`if depends: target = composite_validation else target = f`. -/
def validation_target {V E : Type}
    (depends : List (String → V → Except E Unit))
    (f : String → V → Except E Unit) : String → V → Except E Unit :=
  if depends.isEmpty then f else composite_validation depends f

/-- Model of the generated wrapper `call_target`
(`autoclick/validations/__init__.py` lines 89-100).  The pipeline invokes
a single-parameter validation with one keyword argument, which the
wrapper rebinds to `param_name` / `value` (already-normalized two-key
calls are behaviorally identical); any other shape raises `ValueError`,
modelled by the outer `Option.none`.  The underlying target runs only
when the value is not `None`. -/
def call_target {V E : Type} (target : String → V → Except E Unit)
    (kwargs : List (String × Option V)) : Option (Except E Unit) :=
  match kwargs with
  | [(param_name, value)] =>
    some (match value with
      | Option.none => .ok ()
      | some v => target param_name v)
  | _ => Option.none

/-- C9: for a validation registered through the `validation` decorator,
the wrapper returns without error on a `None` parsed value and the
underlying target — including its declared dependencies — is never
consulted: the result is `.ok` for every choice of dependencies and
decorated function. -/
theorem validation_wrapper_skips_none {V E : Type}
    (depends : List (String → V → Except E Unit))
    (f : String → V → Except E Unit) (param_name : String) :
    call_target (validation_target depends f)
      [(param_name, (Option.none : Option V))] = some (.ok ()) := rfl

/-- The 52-letter pool `ALPHA_CHARS = set(chr(i) for i in
tuple(range(97, 123)) + tuple(range(65, 91)))`. -/
def ALPHA_CHARS : List Char :=
  ((List.range 26).map (fun i => Char.ofNat (97 + i))) ++
    ((List.range 26).map (fun i => Char.ofNat (65 + i)))

/-- The character scan of `BaseDecorator._get_short_name`
(`autoclick/core.py` lines 374-382): walk the parameter name
left-to-right; for an alphabetic character take its lowercase form if
unused, else its uppercase form if unused, else continue. -/
def scanShortName (name : List Char) (used : List Char) : Option Char :=
  match name with
  | [] => Option.none
  | c :: rest =>
    if c.isAlpha then
      if c.toLower ∉ used then some c.toLower
      else if c.toUpper ∉ used then some c.toUpper
      else scanShortName rest used
    else scanShortName rest used

/-- Model of `BaseDecorator._get_short_name` (`autoclick/core.py` lines
366-393; the same algorithm appears in `ParamBuilder.handle_params` in
`autoclick/__init__.py`): an explicit short name that is already used
raises `ParameterCollisionError`; without an explicit name and with
inference enabled, the scan runs, then the fallback picks a letter from
the unused remainder of the 52-letter pool (`remaining.pop()`, modelled
as the first remaining letter), and raises when the pool is exhausted. -/
def get_short_name (explicit : Option Char) (infer_short_names : Bool)
    (name : List Char) (used : List Char) : Except String (Option Char) :=
  match explicit with
  | some c =>
    if c ∈ used then .error "ParameterCollisionError" else .ok (some c)
  | Option.none =>
    if infer_short_names then
      match scanShortName name used with
      | some c => .ok (some c)
      | Option.none =>
        match ALPHA_CHARS.filter (fun c => decide (c ∉ used)) with
        | [] => .error "BadParameter: could not infer short name"
        | c :: _ => .ok (some c)
    else .ok Option.none

/-- The per-character rule of the claim, stated from the specification
words: an alphabetic character yields its lowercase form when unused,
else its uppercase form when unused, else nothing. -/
def claimShortChar (used : List Char) (c : Char) : Option Char :=
  if c.isAlpha then
    if c.toLower ∉ used then some c.toLower
    else if c.toUpper ∉ used then some c.toUpper
    else Option.none
  else Option.none

/-- C6: short-name inference claims, for the first alphabetic character
of the name whose lowercase or uppercase form is unused, the lowercase
form if unused else the uppercase form (the scan equals a first-hit
search with the claimed per-character rule); when no character yields an
unused form it picks some unused letter of the 52-letter pool; and when
the pool is exhausted it raises the short-name-inference failure. -/
theorem short_name_inference_spec (name used : List Char) :
    (scanShortName name used = name.findSome? (claimShortChar used)) ∧
    (∀ c, scanShortName name used = some c →
       get_short_name Option.none true name used = .ok (some c)) ∧
    (scanShortName name used = Option.none →
       (∃ c ∈ ALPHA_CHARS, c ∉ used) →
       ∃ c, get_short_name Option.none true name used = .ok (some c) ∧
         c ∈ ALPHA_CHARS ∧ c ∉ used) ∧
    (scanShortName name used = Option.none →
       (∀ c ∈ ALPHA_CHARS, c ∈ used) →
       get_short_name Option.none true name used =
         .error "BadParameter: could not infer short name") := by
  refine ⟨?_, ?_, ?_, ?_⟩
  · induction name with
    | nil => rfl
    | cons c rest ih =>
      by_cases ha : c.isAlpha <;>
        by_cases hl : c.toLower ∉ used <;>
          by_cases hu : c.toUpper ∉ used <;>
            simp [scanShortName, List.findSome?_cons, claimShortChar,
              ha, hl, hu, ih]
  · intro c h
    unfold get_short_name
    rw [h]
    rfl
  · intro hscan hex
    unfold get_short_name
    rw [hscan]
    rcases hfil : ALPHA_CHARS.filter (fun c => decide (c ∉ used)) with
      _ | ⟨c0, rest⟩
    · obtain ⟨c, hca, hcu⟩ := hex
      have : c ∈ ALPHA_CHARS.filter (fun c => decide (c ∉ used)) :=
        List.mem_filter.mpr ⟨hca, by simpa using hcu⟩
      rw [hfil] at this
      cases this
    · have hc0 : c0 ∈ ALPHA_CHARS.filter (fun c => decide (c ∉ used)) := by
        rw [hfil]; exact List.mem_cons_self c0 rest
      have := List.mem_filter.mp hc0
      exact ⟨c0, rfl, this.1, by simpa using this.2⟩
  · intro hscan hall
    unfold get_short_name
    rw [hscan]
    have hfil : ALPHA_CHARS.filter (fun c => decide (c ∉ used)) = [] := by
      apply List.filter_eq_nil_iff.mpr
      intro c hc
      simpa using hall c hc
    rw [hfil]
    rfl

/-- Witness-style corollary of C6 at the pool-exhaustion scenario of the
specification: with all 52 letters used, inference for the parameter
name ab fails. -/
theorem short_name_inference_spec_witness :
    get_short_name Option.none true ("ab".toList) ALPHA_CHARS =
      .error "BadParameter: could not infer short name" :=
  (short_name_inference_spec ("ab".toList) ALPHA_CHARS).2.2.2 (by decide)
    (fun _ hc => hc)

/-- Exact lookup among the registered commands of a group, modelling
`click.Group.get_command` over the `commands` mapping. -/
def lookupCommand {C : Type} (commands : List (String × C)) (name : String) :
    Option C :=
  match commands with
  | [] => Option.none
  | (k, c) :: rest => if k = name then some c else lookupCommand rest name

/-- Model of `AutoClickGroup.get_command` (`autoclick/commands.py` lines
112-123): exact match first; otherwise collect the registered names that
start with the requested name; no match yields nothing, a unique match is
looked up, several matches fail with a usage error carrying the sorted
matches (`ctx.fail`). -/
def get_command {C : Type} (commands : List (String × C)) (cmd_name : String) :
    Except (List String) (Option C) :=
  match lookupCommand commands cmd_name with
  | some c => .ok (some c)
  | Option.none =>
    match (commands.map Prod.fst).filter
        (fun x => cmd_name.data.isPrefixOf x.data) with
    | [] => .ok Option.none
    | [m] => .ok (lookupCommand commands m)
    | ms => .error (ms.mergeSort (fun a b => a ≤ b))

/-- C10: for a requested name with no exact match, command lookup returns
the unique registered command whose name starts with the requested name,
returns nothing when no registered name has that prefix, and fails with a
usage error listing the matches when several registered names share the
prefix. -/
theorem get_command_prefix_spec {C : Type} (commands : List (String × C))
    (cmd_name : String)
    (hno : lookupCommand commands cmd_name = Option.none)
    (hnodup : (commands.map Prod.fst).Nodup) :
    ((∀ n ∈ commands.map Prod.fst, ¬ cmd_name.data.isPrefixOf n.data = true) →
       get_command commands cmd_name = .ok Option.none) ∧
    (∀ n, n ∈ commands.map Prod.fst → cmd_name.data.isPrefixOf n.data = true →
       (∀ m ∈ commands.map Prod.fst,
         cmd_name.data.isPrefixOf m.data = true → m = n) →
       get_command commands cmd_name = .ok (lookupCommand commands n)) ∧
    (∀ n m, n ∈ commands.map Prod.fst → m ∈ commands.map Prod.fst →
       cmd_name.data.isPrefixOf n.data = true →
       cmd_name.data.isPrefixOf m.data = true → n ≠ m →
       ∃ ms, get_command commands cmd_name = .error ms ∧
         n ∈ ms ∧ m ∈ ms) := by
  refine ⟨?_, ?_, ?_⟩
  · intro hnone
    have hfil : (commands.map Prod.fst).filter
        (fun x => cmd_name.data.isPrefixOf x.data) = [] :=
      List.filter_eq_nil_iff.mpr hnone
    unfold get_command
    rw [hno, hfil]
  · intro n hn hp huniq
    have hfil : (commands.map Prod.fst).filter
        (fun x => cmd_name.data.isPrefixOf x.data) = [n] :=
      nodup_eq_singleton (hnodup.filter _)
        (List.mem_filter.mpr ⟨hn, hp⟩)
        (fun b hb => huniq b (List.mem_filter.mp hb).1
          (List.mem_filter.mp hb).2)
    unfold get_command
    rw [hno, hfil]
  · intro n m hn hm hpn hpm hnm
    have hmemn : n ∈ (commands.map Prod.fst).filter
        (fun x => cmd_name.data.isPrefixOf x.data) :=
      List.mem_filter.mpr ⟨hn, hpn⟩
    have hmemm : m ∈ (commands.map Prod.fst).filter
        (fun x => cmd_name.data.isPrefixOf x.data) :=
      List.mem_filter.mpr ⟨hm, hpm⟩
    unfold get_command
    rw [hno]
    rcases hfil : (commands.map Prod.fst).filter
        (fun x => cmd_name.data.isPrefixOf x.data) with _ | ⟨a, _ | ⟨b, rest⟩⟩
    · rw [hfil] at hmemn; cases hmemn
    · rw [hfil] at hmemn hmemm
      have h1 : n = a := by simpa using hmemn
      have h2 : m = a := by simpa using hmemm
      exact absurd (h1.trans h2.symm) hnm
    · rw [hfil]
      refine ⟨(a :: b :: rest).mergeSort (fun a b => a ≤ b), rfl, ?_, ?_⟩
      · rw [List.mem_mergeSort]
        rw [hfil] at hmemn
        exact hmemn
      · rw [List.mem_mergeSort]
        rw [hfil] at hmemm
        exact hmemm

/-- A concrete command registry for the C10 witness. -/
def demoCommands : List (String × Nat) :=
  [("build", 1), ("bundle", 2), ("clean", 3)]

/-- Witness for C10: the request c resolves by unique prefix to clean,
and the request bu fails with a usage error listing build and bundle. -/
theorem get_command_prefix_spec_witness :
    get_command demoCommands "c" = .ok (some 3) ∧
    (∃ ms, get_command demoCommands "bu" = .error ms ∧
      "build" ∈ ms ∧ "bundle" ∈ ms) :=
  ⟨((get_command_prefix_spec demoCommands "c" rfl (by decide)).2.1 "clean"
      (by decide) (by decide) (by decide)).trans rfl,
    (get_command_prefix_spec demoCommands "bu" rfl (by decide)).2.2 "build"
      "bundle" (by decide) (by decide) (by decide) (by decide) (by decide)⟩

end AutoClick
